import Mathlib

/-!
Verification development for the transcript-saver tool server
(`src/transcript_saver_mcp/server.py`).

The Python source is shallowly embedded: pure helpers become Lean
functions over `String`/`List Char`/`Int`; the JSON values handled by
`json.loads` become the inductive `JValue`; the archive directory tree
becomes the explicit state type `FS`, and the three archive operations
(`save_transcript`, `list_transcripts`, `read_transcript`) become
functions threading that state.  CPython behaviours that the code relies
on (string `strip`/`isalnum` semantics, dict `.get`, truthiness,
`json.loads` tolerance) are modelled explicitly; each such model carries
a doc comment stating its scope.
-/

/-! ## Python string and number helpers -/

/-- Model of CPython `str.join` (`sep.join(xs)`). -/
def pyJoin (sep : String) : List String → String
  | [] => ""
  | [x] => x
  | x :: y :: t => x ++ sep ++ pyJoin sep (y :: t)

/-- Model of CPython `str.isspace` for a single character: the exact set of
Unicode code points CPython treats as whitespace (and which `str.strip`
with no argument removes). -/
def pyIsSpaceChar (c : Char) : Bool :=
  [9, 10, 11, 12, 13, 28, 29, 30, 31, 32, 133, 160, 5760,
   8192, 8193, 8194, 8195, 8196, 8197, 8198, 8199, 8200, 8201, 8202,
   8232, 8233, 8239, 8287, 12288].contains c.toNat

/-- Drop leading characters satisfying `p`. -/
def dropLeading (p : Char → Bool) : List Char → List Char
  | [] => []
  | c :: t => if p c then dropLeading p t else c :: t

/-- Trim characters satisfying `p` from both ends of a character list. -/
def trimBy (p : Char → Bool) (l : List Char) : List Char :=
  ((dropLeading p (dropLeading p l).reverse)).reverse

/-- Model of CPython `str.strip()` with no argument. -/
def pyStrip (s : String) : String :=
  String.mk (trimBy pyIsSpaceChar s.data)

/-- Model of CPython `str.isalnum` for a single character, faithful on the
Basic Latin and Latin-1 Supplement blocks (code points up to `0xFF`):
ASCII letters and digits, the Latin-1 letters `0xC0`–`0xFF` except the
multiplication and division signs `0xD7`/`0xF7`, and the Latin-1
alphanumeric signs `ª ² ³ µ ¹ º ¼ ½ ¾`.  Code points above `0xFF` are
outside the modelled scope and are treated as non-alphanumeric. -/
def pyIsAlnum (c : Char) : Bool :=
  let n := c.toNat
  decide ((48 ≤ n ∧ n ≤ 57) ∨ (65 ≤ n ∧ n ≤ 90) ∨ (97 ≤ n ∧ n ≤ 122) ∨
    n = 0xAA ∨ n = 0xB2 ∨ n = 0xB3 ∨ n = 0xB5 ∨ n = 0xB9 ∨ n = 0xBA ∨
    n = 0xBC ∨ n = 0xBD ∨ n = 0xBE ∨
    (0xC0 ≤ n ∧ n ≤ 0xFF ∧ n ≠ 0xD7 ∧ n ≠ 0xF7))

/-- Model of CPython `str.isdigit` for a single character, faithful for
ASCII names (code points above `0x7F` are outside the modelled scope). -/
def pyIsDigitChar (c : Char) : Bool :=
  decide (48 ≤ c.toNat ∧ c.toNat ≤ 57)

/-- Model of CPython `str.isdigit` on a whole string (`name.isdigit()`):
nonempty and all characters digits. -/
def pyIsDigitStr (s : String) : Bool :=
  decide (s.data ≠ []) && s.data.all pyIsDigitChar

/-- Zero-pad a natural number to two digits, as `f"{n:02d}"`. -/
def pad2 (n : Nat) : String :=
  if n < 10 then "0" ++ Nat.repr n else Nat.repr n

/-- Zero-pad an integer to two digits, as `f"{n:02d}"` (negative numbers of
two or more characters are printed as-is, matching CPython). -/
def pad2Int (n : Int) : String :=
  if 0 ≤ n ∧ n < 10 then "0" ++ Int.repr n else Int.repr n

/-- Zero-pad a natural number to four digits, as `%Y` renders years in the
range handled by the program (the model assumes `year ≥ 1000` prints
without padding identically). -/
def pad4 (n : Nat) : String :=
  if n < 10 then "000" ++ Nat.repr n
  else if n < 100 then "00" ++ Nat.repr n
  else if n < 1000 then "0" ++ Nat.repr n
  else Nat.repr n

/-- Zero-pad a natural number to six digits (microseconds in `isoformat`). -/
def pad6 (n : Nat) : String :=
  if n < 10 then "00000" ++ Nat.repr n
  else if n < 100 then "0000" ++ Nat.repr n
  else if n < 1000 then "000" ++ Nat.repr n
  else if n < 10000 then "00" ++ Nat.repr n
  else if n < 100000 then "0" ++ Nat.repr n
  else Nat.repr n

/-! ## Timestamps -/

/-- A `datetime.datetime` value as used by the server: calendar fields at
microsecond precision. -/
structure DateTime where
  year : Nat
  month : Nat
  day : Nat
  hour : Nat
  minute : Nat
  second : Nat
  microsecond : Nat
deriving DecidableEq

/-- `dt.strftime("%Y-%m-%d_%H-%M-%S")` as used by `generate_filename`. -/
def strftimeTs (dt : DateTime) : String :=
  pad4 dt.year ++ "-" ++ pad2 dt.month ++ "-" ++ pad2 dt.day ++ "_" ++
    pad2 dt.hour ++ "-" ++ pad2 dt.minute ++ "-" ++ pad2 dt.second

/-- `dt.strftime("%Y-%m-%d %H:%M:%S")` as used in the document headers. -/
def strftimeDisplay (dt : DateTime) : String :=
  pad4 dt.year ++ "-" ++ pad2 dt.month ++ "-" ++ pad2 dt.day ++ " " ++
    pad2 dt.hour ++ ":" ++ pad2 dt.minute ++ ":" ++ pad2 dt.second

/-- `dt.isoformat()`: seconds always printed, microseconds only if nonzero. -/
def isoformat (dt : DateTime) : String :=
  pad4 dt.year ++ "-" ++ pad2 dt.month ++ "-" ++ pad2 dt.day ++ "T" ++
    pad2 dt.hour ++ ":" ++ pad2 dt.minute ++ ":" ++ pad2 dt.second ++
    (if dt.microsecond = 0 then "" else "." ++ pad6 dt.microsecond)

/-! ## `generate_filename` (server.py lines 189-197) -/

/-- The character filter of the title sanitizer:
`c.isalnum() or c in "-_ "`. -/
def keepTitleChar (c : Char) : Bool :=
  pyIsAlnum c || decide (c = '-') || decide (c = '_') || decide (c = ' ')

/-- The `safe_title` computation inside `generate_filename`:
keep only alphanumerics and `-`, `_`, space; then `.strip()`, then
`.replace(" ", "-")`, then `[:50]`. -/
def sanitizeTitle (t : String) : String :=
  String.mk ((((trimBy pyIsSpaceChar (t.data.filter keepTitleChar)).map
    (fun c => if c = ' ' then '-' else c)).take 50))

/-- `generate_filename(dt, title)`: timestamp, then `_<safe_title>` when the
title is truthy (present and nonempty), then `.md`. -/
def generate_filename (dt : DateTime) (title : Option String) : String :=
  match title with
  | some t =>
    if t = "" then strftimeTs dt ++ ".md"
    else strftimeTs dt ++ "_" ++ sanitizeTitle t ++ ".md"
  | none => strftimeTs dt ++ ".md"

/-- The character class `[A-Za-z0-9 _-]` named by the specification for the
sanitized title. -/
def specAsciiAllowed (c : Char) : Bool :=
  decide ((65 ≤ c.toNat ∧ c.toNat ≤ 90) ∨ (97 ≤ c.toNat ∧ c.toNat ≤ 122) ∨
    (48 ≤ c.toNat ∧ c.toNat ≤ 57) ∨ c = ' ' ∨ c = '_' ∨ c = '-')

/-- A fixed timestamp used by the concrete scenarios. -/
def dt0 : DateTime := ⟨2025, 1, 2, 3, 4, 5, 0⟩

/-! ## Python string ordering and `sorted` -/

/-- Code-point lexicographic `<` on character lists: exactly CPython string
comparison. -/
def charsLt : List Char → List Char → Bool
  | [], [] => false
  | [], _ :: _ => true
  | _ :: _, [] => false
  | a :: as, b :: bs =>
    if a.toNat < b.toNat then true
    else if b.toNat < a.toNat then false
    else charsLt as bs

/-- `a ≤ b` for Python strings. -/
def pyStrLe (a b : String) : Bool := ! charsLt b.data a.data

/-- Insert into an ascending list (helper of `pySorted`). -/
def insAsc (x : String) : List String → List String
  | [] => [x]
  | y :: t => if pyStrLe x y then x :: y :: t else y :: insAsc x t

/-- Model of CPython `sorted` on strings: stable ascending sort by
code-point order. -/
def pySorted : List String → List String
  | [] => []
  | x :: t => insAsc x (pySorted t)

/-! ## JSON values (the results of `json.loads`) -/

/-- A JSON value as produced by `json.loads`: the Python shapes
`dict` / `list` / `str` / `int` / `bool` / `None`.  JSON numbers with a
fractional part or exponent (Python floats) are outside the modelled
subset. -/
inductive JValue where
  | null
  | bool (b : Bool)
  | num (n : Int)
  | str (s : String)
  | arr (items : List JValue)
  | obj (fields : List (String × JValue))

/-- Model of the Python comparison `v == lit` between a parsed JSON value
and a string literal (used by the renderer dispatch): true exactly when
`v` is that string. -/
def jIsStr (v : JValue) (s : String) : Bool :=
  match v with
  | .str t => t == s
  | _ => false

/-- Last-binding lookup in an association list: the value `dict[k]` holds
after the assignments that built the dict (for duplicate JSON keys the
last one wins, as in CPython). -/
def lookupLast (fields : List (String × JValue)) (k : String) : Option JValue :=
  fields.foldl (fun acc kv => if kv.1 = k then some kv.2 else acc) none

/-- Model of `d.get(k, default)` on a parsed JSON object. -/
def jGetD (v : JValue) (k : String) (d : JValue) : JValue :=
  match v with
  | .obj fields => (lookupLast fields k).getD d
  | _ => d

/-- Model of Python truthiness (`if x:`) on a parsed JSON value. -/
def pyTruthy : JValue → Bool
  | .null => false
  | .bool b => b
  | .num n => decide (n ≠ 0)
  | .str s => decide (s ≠ "")
  | .arr [] => false
  | .arr (_ :: _) => true
  | .obj [] => false
  | .obj (_ :: _) => true

/-! ## Python `str()` / `repr()` of parsed JSON values -/

/-- Escape one character inside CPython `repr` of a string.  `q` is the
chosen quote character.  Faithful for printable characters; the model
renders control characters below `0x20` and `0x7F` as `\xhh` and keeps
all other characters literal (CPython also escapes unprintable
characters above `0xFF`, which are outside the modelled scope). -/
def pyReprEscChar (q : Char) (c : Char) : String :=
  if c = '\\' then "\\\\"
  else if c = q then "\\" ++ String.singleton q
  else if c = '\n' then "\\n"
  else if c = '\r' then "\\r"
  else if c = '\t' then "\\t"
  else if c.toNat < 0x20 ∨ c.toNat = 0x7F then
    "\\x" ++ String.mk [Nat.digitChar (c.toNat / 16), Nat.digitChar (c.toNat % 16)]
  else String.singleton c

/-- CPython `repr` of a string: single quotes, unless the string contains a
single quote and no double quote. -/
def pyReprStr (s : String) : String :=
  let sq : Char := Char.ofNat 39
  let q : Char := if s.data.contains sq ∧ ¬ s.data.contains '"' then '"' else sq
  String.singleton q ++ pyJoin "" (s.data.map (pyReprEscChar q)) ++ String.singleton q

mutual

/-- CPython `repr` of a parsed JSON value. -/
def pyRepr : JValue → String
  | .null => "None"
  | .bool b => if b then "True" else "False"
  | .num n => Int.repr n
  | .str s => pyReprStr s
  | .arr l => "[" ++ pyReprItems l ++ "]"
  | .obj fields => "\x7b" ++ pyReprFields fields ++ "\x7d"

/-- Comma-joined `repr` of list items. -/
def pyReprItems : List JValue → String
  | [] => ""
  | [v] => pyRepr v
  | v :: rest => pyRepr v ++ ", " ++ pyReprItems rest

/-- Comma-joined `repr` of dict entries (`repr(key): repr(value)`). -/
def pyReprFields : List (String × JValue) → String
  | [] => ""
  | [(k, v)] => pyReprStr k ++ ": " ++ pyRepr v
  | (k, v) :: rest => pyReprStr k ++ ": " ++ pyRepr v ++ ", " ++ pyReprFields rest

end

/-- CPython `str()` of a parsed JSON value, as used by f-string
interpolation: a string is rendered as itself, everything else as its
`repr`. -/
def pyStr (v : JValue) : String :=
  match v with
  | .str s => s
  | v => pyRepr v

/-! ## `json.dumps(..., indent=2)` (used for `tool_use` input) -/

/-- A run of `n` spaces. -/
def spacesStr (n : Nat) : String := String.mk (List.replicate n ' ')

/-- Hex digit for `\uXXXX` escapes (lowercase, as CPython emits). -/
def hexDigitL (n : Nat) : Char :=
  if n < 10 then Char.ofNat (48 + n) else Char.ofNat (87 + n)

/-- Four-digit hex rendering of a code unit. -/
def hex4 (n : Nat) : String :=
  String.mk [hexDigitL (n / 4096 % 16), hexDigitL (n / 256 % 16),
             hexDigitL (n / 16 % 16), hexDigitL (n % 16)]

/-- Escape one character in `json.dumps` output with the default
`ensure_ascii=True`: characters above `0x7E` become `\uXXXX` escapes
(surrogate pairs above `0xFFFF`). -/
def jsonEscChar (c : Char) : String :=
  if c = '"' then "\\\""
  else if c = '\\' then "\\\\"
  else if c = '\n' then "\\n"
  else if c = '\t' then "\\t"
  else if c = '\r' then "\\r"
  else if c = '\x08' then "\\b"
  else if c = '\x0c' then "\\f"
  else if c.toNat < 0x20 then "\\u" ++ hex4 c.toNat
  else if c.toNat ≤ 0x7E then String.singleton c
  else if c.toNat ≤ 0xFFFF then "\\u" ++ hex4 c.toNat
  else "\\u" ++ hex4 (0xD800 + (c.toNat - 0x10000) / 1024) ++
       "\\u" ++ hex4 (0xDC00 + (c.toNat - 0x10000) % 1024)

/-- `json.dumps` rendering of a string. -/
def jsonQuote (s : String) : String :=
  "\"" ++ pyJoin "" (s.data.map jsonEscChar) ++ "\""

mutual

/-- `json.dumps(v, indent=2)` rendering at nesting level `lvl`. -/
def jdump : Nat → JValue → String
  | _, .null => "null"
  | _, .bool b => if b then "true" else "false"
  | _, .num n => Int.repr n
  | _, .str s => jsonQuote s
  | _, .arr [] => "[]"
  | lvl, .arr (v :: vs) =>
    "[\n" ++ spacesStr (2 * (lvl + 1)) ++ jdumpItems (lvl + 1) (v :: vs) ++
      "\n" ++ spacesStr (2 * lvl) ++ "]"
  | _, .obj [] => "\x7b\x7d"
  | lvl, .obj (kv :: kvs) =>
    "\x7b\n" ++ spacesStr (2 * (lvl + 1)) ++ jdumpFields (lvl + 1) (kv :: kvs) ++
      "\n" ++ spacesStr (2 * lvl) ++ "\x7d"

/-- Array items joined by `",\n" + indent`. -/
def jdumpItems : Nat → List JValue → String
  | _, [] => ""
  | lvl, [v] => jdump lvl v
  | lvl, v :: rest => jdump lvl v ++ ",\n" ++ spacesStr (2 * lvl) ++ jdumpItems lvl rest

/-- Object entries `"key": value` joined by `",\n" + indent`. -/
def jdumpFields : Nat → List (String × JValue) → String
  | _, [] => ""
  | lvl, [(k, v)] => jsonQuote k ++ ": " ++ jdump lvl v
  | lvl, (k, v) :: rest =>
    jsonQuote k ++ ": " ++ jdump lvl v ++ ",\n" ++ spacesStr (2 * lvl) ++ jdumpFields lvl rest

end

/-- `json.dumps(v, indent=2)`. -/
def jsonDumpsI2 (v : JValue) : String := jdump 0 v

/-! ## The transcript renderer (`parse_jsonl_to_markdown`, lines 89-170) -/

/-- One nested item of a `tool_result` content list: a dict of type
`text` yields its own fenced "Tool Result" section; anything else is
skipped (server.py lines 137-139). -/
def toolResultPart (tc : JValue) : List String :=
  match tc with
  | .obj _ =>
    if jIsStr (jGetD tc "type" .null) "text" then
      ["### Tool Result\n\n```\n" ++ pyStr (jGetD tc "text" (.str "")) ++ "\n```\n"]
    else []
  | _ => []

/-- One item of a user record content list (server.py lines 130-141). -/
def userItemParts (item : JValue) : List String :=
  match item with
  | .obj _ =>
    if jIsStr (jGetD item "type" .null) "text" then
      ["## Human\n\n" ++ pyStr (jGetD item "text" (.str "")) ++ "\n"]
    else if jIsStr (jGetD item "type" .null) "tool_result" then
      match jGetD item "content" (.str "") with
      | .arr tcs => tcs.flatMap toolResultPart
      | tc => ["### Tool Result\n\n```\n" ++ pyStr tc ++ "\n```\n"]
    else []
  | _ => []

/-- One item of an assistant record content list (server.py lines
148-162). -/
def assistantItemParts (item : JValue) : List String :=
  match item with
  | .obj _ =>
    if jIsStr (jGetD item "type" (.str "")) "text" then
      ["## Claude\n\n" ++ pyStr (jGetD item "text" (.str "")) ++ "\n"]
    else if jIsStr (jGetD item "type" (.str "")) "thinking" then
      ["## Claude (Thinking)\n\n> " ++ pyStr (jGetD item "thinking" (.str "")) ++ "\n"]
    else if jIsStr (jGetD item "type" (.str "")) "tool_use" then
      ["### Tool Use: " ++ pyStr (jGetD item "name" (.str "unknown")) ++
        "\n\n```json\n" ++ jsonDumpsI2 (jGetD item "input" (.obj [])) ++ "\n```\n"]
    else []
  | _ => []

/-- The markdown parts contributed by one parsed record (the body of the
`for msg in messages` loop, server.py lines 114-168).  `none` models the
`AttributeError` the Python code raises when `msg` (or a user/assistant
record field `message`) is not a dict: `.get` is called on a non-dict
and the exception propagates out of the renderer. -/
def renderRecord (msg : JValue) : Option (List String) :=
  match msg with
  | .obj _ =>
    let t := jGetD msg "type" (.str "")
    if jIsStr t "summary" || jIsStr t "file-history-snapshot" then some []
    else if jIsStr t "user" then
      match jGetD msg "message" (.obj []) with
      | .obj mf =>
        some (match jGetD (.obj mf) "content" (.str "") with
          | .str s => ["## Human\n\n" ++ s ++ "\n"]
          | .arr items => items.flatMap userItemParts
          | _ => [])
      | _ => none
    else if jIsStr t "assistant" then
      match jGetD msg "message" (.obj []) with
      | .obj mf =>
        some (match jGetD (.obj mf) "content" (.arr []) with
          | .arr items => items.flatMap assistantItemParts
          | _ => [])
      | _ => none
    else if jIsStr t "system" then
      let subtype := jGetD msg "subtype" (.str "")
      let content := jGetD msg "content" (.str "")
      some (if pyTruthy content && pyTruthy subtype then
        ["## System (" ++ pyStr subtype ++ ")\n\n" ++ pyStr content ++ "\n"]
      else [])
    else some []
  | _ => none

/-- All markdown parts of a record list, aborting (`none`) at the first
record whose processing raises. -/
def renderRecords : List JValue → Option (List String)
  | [] => some []
  | m :: rest =>
    match renderRecord m with
    | none => none
    | some parts =>
      match renderRecords rest with
      | none => none
      | some ps => some (parts ++ ps)

/-! ## A model of `json.loads`

A strict JSON reader covering the subset the session logs use: objects,
arrays, strings (with the simple backslash escapes), integers, `true`,
`false`, `null`.  Outside the modelled subset — where this reader
answers `none` although CPython may accept the text — are: numbers with
a fractional part or exponent, `NaN`/`Infinity`, and `\uXXXX` string
escapes.  Like CPython, the reader rejects trailing garbage, leading
zeros, raw control characters inside strings, and any malformed text. -/

/-- Skip JSON whitespace (space, tab, newline, carriage return). -/
def jskipWs : List Char → List Char
  | [] => []
  | c :: t =>
    if c = ' ' || c = '\t' || c = '\n' || c = '\r' then jskipWs t else c :: t

/-- Read a string body after the opening quote; returns the string and the
rest of the input. -/
def jstrBody : List Char → List Char → Option (String × List Char)
  | [], _ => none
  | c :: t, acc =>
    if c = '"' then some (String.mk acc.reverse, t)
    else if c = '\\' then
      match t with
      | [] => none
      | e :: t2 =>
        if e = '"' then jstrBody t2 ('"' :: acc)
        else if e = '\\' then jstrBody t2 ('\\' :: acc)
        else if e = '/' then jstrBody t2 ('/' :: acc)
        else if e = 'b' then jstrBody t2 ('\x08' :: acc)
        else if e = 'f' then jstrBody t2 ('\x0c' :: acc)
        else if e = 'n' then jstrBody t2 ('\n' :: acc)
        else if e = 'r' then jstrBody t2 ('\r' :: acc)
        else if e = 't' then jstrBody t2 ('\t' :: acc)
        else none
    else if c.toNat < 0x20 then none
    else jstrBody t (c :: acc)

/-- Read a run of decimal digits into an accumulator. -/
def jdigits : List Char → Nat → (Nat × Nat × List Char)
  | c :: t, acc =>
    if pyIsDigitChar c then
      let r := jdigits t (acc * 10 + (c.toNat - 48))
      (r.1, r.2.1 + 1, r.2.2)
    else (acc, 0, c :: t)
  | [], acc => (acc, 0, [])

/-- Read a JSON integer (optional minus, no leading zeros); `none` when the
text is not an integer of the modelled subset, including when a
fractional part or exponent follows. -/
def jparseInt (cs : List Char) : Option (Int × List Char) :=
  let (neg, cs0) :=
    match cs with
    | c :: t => if c = '-' then (true, t) else (false, cs)
    | [] => (false, cs)
  match cs0 with
  | [] => none
  | c :: _ =>
    if ¬ pyIsDigitChar c then none
    else
      let (n, count, rest) := jdigits cs0 0
      if count ≥ 2 ∧ c = '0' then none
      else
        match rest with
        | r :: _ => if r = '.' || r = 'e' || r = 'E' then none
                    else some (if neg then -(n : Int) else (n : Int), rest)
        | [] => some (if neg then -(n : Int) else (n : Int), rest)

/-- Expect the exact characters `expected` at the head of the input. -/
def stripToken : List Char → List Char → Option (List Char)
  | [], cs => some cs
  | _ :: _, [] => none
  | e :: es, c :: cs => if c = e then stripToken es cs else none

/-- A partially built container on the reader stack. -/
inductive JFrame where
  | arrF (items : List JValue)
  | objF (fields : List (String × JValue)) (curKey : Option String)

/-- Reader mode: about to read a value, holding a finished value, or about
to read an object key. -/
inductive PSt where
  | needVal
  | haveVal (v : JValue)
  | needKey

/-- The reader loop.  Fuel only bounds the number of steps; every step but
the last consumes input, so `length + 2` always suffices. -/
def jrun : Nat → PSt → List JFrame → List Char → Option JValue
  | 0, _, _, _ => none
  | Nat.succ f, st, stack, cs =>
    match st with
    | .needVal =>
      match jskipWs cs with
      | [] => none
      | c :: t =>
        if c = Char.ofNat 123 then
          match jskipWs t with
          | c2 :: t2 =>
            if c2 = Char.ofNat 125 then jrun f (.haveVal (.obj [])) stack t2
            else jrun f .needKey (.objF [] none :: stack) (c2 :: t2)
          | [] => none
        else if c = '[' then
          match jskipWs t with
          | c2 :: t2 =>
            if c2 = ']' then jrun f (.haveVal (.arr [])) stack t2
            else jrun f .needVal (.arrF [] :: stack) (c2 :: t2)
          | [] => none
        else if c = '"' then
          match jstrBody t [] with
          | some (s, r) => jrun f (.haveVal (.str s)) stack r
          | none => none
        else if c = 't' then
          match stripToken ['r', 'u', 'e'] t with
          | some r => jrun f (.haveVal (.bool true)) stack r
          | none => none
        else if c = 'f' then
          match stripToken ['a', 'l', 's', 'e'] t with
          | some r => jrun f (.haveVal (.bool false)) stack r
          | none => none
        else if c = 'n' then
          match stripToken ['u', 'l', 'l'] t with
          | some r => jrun f (.haveVal .null) stack r
          | none => none
        else
          match jparseInt (c :: t) with
          | some (n, r) => jrun f (.haveVal (.num n)) stack r
          | none => none
    | .needKey =>
      match jskipWs cs with
      | c :: t =>
        if c = '"' then
          match jstrBody t [] with
          | some (k, r) =>
            match jskipWs r with
            | c2 :: t2 =>
              if c2 = ':' then
                match stack with
                | .objF fields none :: rest =>
                  jrun f .needVal (.objF fields (some k) :: rest) t2
                | _ => none
              else none
            | [] => none
          | none => none
        else none
      | [] => none
    | .haveVal v =>
      match stack with
      | [] => if jskipWs cs = [] then some v else none
      | .arrF items :: rest =>
        match jskipWs cs with
        | c :: t =>
          if c = ',' then jrun f .needVal (.arrF (items ++ [v]) :: rest) t
          else if c = ']' then jrun f (.haveVal (.arr (items ++ [v]))) rest t
          else none
        | [] => none
      | .objF fields (some k) :: rest =>
        match jskipWs cs with
        | c :: t =>
          if c = ',' then jrun f .needKey (.objF (fields ++ [(k, v)]) none :: rest) t
          else if c = Char.ofNat 125 then
            jrun f (.haveVal (.obj (fields ++ [(k, v)]))) rest t
          else none
        | [] => none
      | .objF _ none :: _ => none

/-- Model of `json.loads` on one line (see the subset note above). -/
def jsonLoads (s : String) : Option JValue :=
  jrun (s.data.length + 16) .needVal [] s.data

/-- The record-collection loop of `parse_jsonl_to_markdown` (server.py
lines 100-109): strip each line, skip blank lines, keep the lines that
parse as JSON and silently drop the ones that raise `JSONDecodeError`. -/
def lineRecords (lines : List String) : List JValue :=
  lines.filterMap (fun l =>
    if pyStrip l = "" then none else jsonLoads (pyStrip l))

/-- `parse_jsonl_to_markdown`, with the file contents supplied as its list
of lines: parse tolerantly, render each record, join all parts with
newlines.  `none` models an exception escaping the renderer. -/
def parse_jsonl_to_markdown (lines : List String) : Option String :=
  (renderRecords (lineRecords lines)).map (pyJoin "\n")

/-! ## The archive filesystem

The directory tree under the Archive Root (`get_transcripts_dir()`),
with paths as component lists relative to the root; `[]` is the root
itself.  Regular files carry their text content and a modification
time.  Operations model the POSIX behaviour the server relies on. -/

/-- A regular file in the archive tree. -/
structure FSFile where
  path : List String
  content : String
  mtime : DateTime
deriving DecidableEq

/-- The archive tree: the set of existing directories (as a list) and the
regular files. -/
structure FS where
  dirs : List (List String)
  files : List FSFile
deriving DecidableEq

/-- Does a directory exist at `p`? -/
def isDirAt (fs : FS) (p : List String) : Bool :=
  fs.dirs.any (fun d => d == p)

/-- Does a regular file exist at `p`? -/
def isFileAt (fs : FS) (p : List String) : Bool :=
  fs.files.any (fun f => f.path == p)

/-- `Path.exists()`. -/
def pathExistsAt (fs : FS) (p : List String) : Bool :=
  isDirAt fs p || isFileAt fs p

/-- The file stored at `p`, if any. -/
def findF (fs : FS) (p : List String) : Option FSFile :=
  fs.files.find? (fun f => f.path == p)

/-- Is `pre` a (possibly equal) leading segment of `q`? -/
def listIsPre : List String → List String → Bool
  | [], _ => true
  | _ :: _, [] => false
  | a :: as, b :: bs => a == b && listIsPre as bs

/-- Is the first character list a leading segment of the second? -/
def charsIsPre : List Char → List Char → Bool
  | [], _ => true
  | _ :: _, [] => false
  | a :: as, b :: bs => a == b && charsIsPre as bs

/-- Does `s` end with `suffix`?  (`fnmatch` of the pattern `*.md` accepts
exactly the names ending in `.md`.) -/
def strEndsWith (s suffix : String) : Bool :=
  charsIsPre suffix.data.reverse s.data.reverse

/-- All leading segments of a path, shortest first (`[]`, then one
component, ...). -/
def leadSegs : List String → List (List String)
  | [] => [[]]
  | x :: t => [] :: (leadSegs t).map (x :: ·)

/-- `Path.mkdir(parents=True, exist_ok=True)` applied to the successive
leading segments of the target: create each missing directory; fail
(first component of the result `false`) when a segment exists as a
regular file, keeping what was created so far. -/
def mkdirSeq (fs : FS) : List (List String) → Bool × FS
  | [] => (true, fs)
  | p :: rest =>
    if isFileAt fs p then (false, fs)
    else if isDirAt fs p then mkdirSeq fs rest
    else mkdirSeq { fs with dirs := fs.dirs ++ [p] } rest

/-- `Path.write_text`: overwrite or create the file; fail when the path is
a directory (`IsADirectoryError`). -/
def writeTextAt (fs : FS) (p : List String) (c : String) (mt : DateTime) : Bool × FS :=
  if isDirAt fs p then (false, fs)
  else if isFileAt fs p then
    (true, { fs with files := fs.files.map (fun f =>
      if f.path == p then { f with content := c, mtime := mt } else f) })
  else (true, { fs with files := fs.files ++ [⟨p, c, mt⟩] })

/-- The names of the children of directory `d`, in tree-store order,
deduplicated: the results of `d.glob("*")` before sorting. -/
def childNames (fs : FS) (d : List String) : List String :=
  ((fs.dirs ++ fs.files.map (·.path)).filterMap (fun q =>
    if listIsPre d q && q.length == d.length + 1 then (q.drop d.length).head? else none)).dedup

/-- UTF-8 byte length of a string (`len(s.encode("utf-8"))`, and the size
`stat` reports for a file written with `write_text(encoding="utf-8")`). -/
def utf8Len (s : String) : Nat := s.utf8ByteSize

/-! ## `save_transcript` (server.py lines 327-406) -/

/-- Truthiness of an optional string argument (`if title:`). -/
def optTruthy : Option String → Bool
  | none => false
  | some s => decide (s ≠ "")

/-- The year/month directory of a timestamp:
`base_dir / str(dt.year) / f"{dt.month:02d}"` (`ensure_month_dir`). -/
def monthRelOf (now : DateTime) : List String :=
  [Nat.repr now.year, pad2 now.month]

/-- The document parts built before the `"## Transcript"` heading
(server.py lines 348-377): YAML frontmatter, title header, optional
summary section. -/
def saveFrontParts (now : DateTime) (title : Option String) (tags : List String)
    (summary : Option String) : List String :=
  "---" :: ("date: " ++ isoformat now) ::
  ((if optTruthy title then ["title: \"" ++ title.getD "" ++ "\""] else []) ++
   (if tags.isEmpty then [] else ["tags: [" ++ pyJoin ", " tags ++ "]"]) ++
   (if optTruthy summary then ["summary: \"" ++ summary.getD "" ++ "\""] else []) ++
   ["---", ""] ++
   (if optTruthy title then
      ["# " ++ title.getD "", "", "*Saved: " ++ strftimeDisplay now ++ "*"]
    else ["# Transcript - " ++ strftimeDisplay now]) ++
   [""] ++
   (if optTruthy summary then ["## Summary", "", summary.getD "", ""] else []))

/-- The full document written by `save_transcript`:
`"\n".join(md_parts)` with the `"## Transcript"` section last. -/
def buildSaveDoc (now : DateTime) (title : Option String) (tags : List String)
    (summary : Option String) (content : String) : String :=
  pyJoin "\n" (saveFrontParts now title tags summary ++ ["## Transcript", "", content])

/-- The success payload of `save_transcript`. -/
structure SaveRec where
  status : String
  filepath : String
  filename : String
  timestamp : String
  size_bytes : Nat
  title : Option String
  tags : List String
deriving DecidableEq

/-- The result payload of `save_transcript`: the `{"error": ...}` dict or
the success dict. -/
inductive SaveOut where
  | err (msg : String)
  | ok (rec : SaveRec)
deriving DecidableEq

/-- The `save_transcript` tool handler: validate content, ensure the
year/month directory, compose the document, write it, report path and
size.  `base` is the string form of the Archive Root; the returned `FS`
is the archive state afterwards. -/
def save_transcript (base : String) (fs : FS) (now : DateTime) (content : String)
    (title : Option String) (tags : List String) (summary : Option String) :
    SaveOut × FS :=
  if pyStrip content = "" then (.err "Content cannot be empty", fs)
  else
    let rel := monthRelOf now
    match mkdirSeq fs (leadSegs rel) with
    | (false, fs1) => (.err "FileExistsError", fs1)
    | (true, fs1) =>
      let fname := generate_filename now title
      let doc := buildSaveDoc now title tags summary content
      match writeTextAt fs1 (rel ++ [fname]) doc now with
      | (false, fs2) => (.err "IsADirectoryError", fs2)
      | (true, fs2) =>
        (.ok { status := "saved",
               filepath := base ++ "/" ++ pyJoin "/" (rel ++ [fname]),
               filename := fname,
               timestamp := isoformat now,
               size_bytes := utf8Len doc,
               title := title, tags := tags }, fs2)

/-! ## `list_transcripts` (server.py lines 408-483) -/

/-- Truthiness of an optional integer argument (`if year_filter:`:
absent and `0` are falsy). -/
def intTruthy : Option Int → Bool
  | none => false
  | some n => decide (n ≠ 0)

/-- One entry of the `transcripts` result array.  `modified` is the
`isoformat` of the file modification time (the model keeps modification
times as calendar times, so `datetime.fromtimestamp(st_mtime)` is the
stored `DateTime` itself). -/
structure TEntry where
  filename : String
  path : String
  full_path : String
  size_bytes : Nat
  modified : String
deriving DecidableEq

/-- The `list_transcripts` result dict: `message` is set (and `filters`
absent) exactly in the missing-root case. -/
structure ListRes where
  transcripts : List TEntry
  total : Nat
  directory : String
  message : Option String
  filters : Option (Option Int × Option Int × Int)
deriving DecidableEq

/-- The `search_dirs` computation (server.py lines 429-442): an explicit
year+month pair names one directory; a year alone lists that year's
children in ascending name order; otherwise walk all digit-named year
directories and their month directories, both newest-first. -/
def searchDirsFor (fs : FS) (year month : Option Int) : List (List String) :=
  if intTruthy year && intTruthy month then
    [[Int.repr (year.getD 0), pad2Int (month.getD 0)]]
  else if intTruthy year then
    let yd := [Int.repr (year.getD 0)]
    if pathExistsAt fs yd then (pySorted (childNames fs yd)).map (fun n => yd ++ [n])
    else []
  else
    ((pySorted (childNames fs [])).reverse.filter
        (fun n => isDirAt fs [n] && pyIsDigitStr n)).flatMap
      (fun y => ((pySorted (childNames fs [y])).reverse.filter
          (fun m => isDirAt fs [y, m])).map (fun m => [y, m]))

/-- The `*.md` entries of one directory, newest name first
(`sorted(dir_path.glob("*.md"), reverse=True)`), with the metadata the
handler collects.  The model matches regular files (a directory whose
name ends in `.md` is outside the modelled scope). -/
def mdEntriesOf (base : String) (fs : FS) (d : List String) : List TEntry :=
  let names := ((fs.files.filterMap (fun f =>
    if listIsPre d f.path && f.path.length == d.length + 1
    then (f.path.drop d.length).head? else none)).dedup).filter
      (fun n => strEndsWith n ".md")
  ((pySorted names).reverse).filterMap (fun n =>
    (findF fs (d ++ [n])).map (fun f =>
      { filename := n,
        path := pyJoin "/" (d ++ [n]),
        full_path := base ++ "/" ++ pyJoin "/" (d ++ [n]),
        size_bytes := utf8Len f.content,
        modified := isoformat f.mtime }))

/-- The inner collection loop over one directory's files: stop as soon as
the limit is reached, else append. -/
def innerLoop (es : List TEntry) (limit : Int) (acc : List TEntry) : List TEntry :=
  match es with
  | [] => acc
  | e :: rest =>
    if limit ≤ (acc.length : Int) then acc
    else innerLoop rest limit (acc ++ [e])

/-- The outer collection loop over `search_dirs`: skip missing
directories, collect entries, break once the limit is reached. -/
def outerLoop (base : String) (fs : FS) (limit : Int) :
    List (List String) → List TEntry → List TEntry
  | [], acc => acc
  | d :: rest, acc =>
    if pathExistsAt fs d = false then outerLoop base fs limit rest acc
    else
      let acc2 := innerLoop (mdEntriesOf base fs d) limit acc
      if limit ≤ (acc2.length : Int) then acc2
      else outerLoop base fs limit rest acc2

/-- The entries collected from a directory list when no limit intervenes:
existing directories only, in order, each contributing its `*.md`
entries. -/
def flatEntries (base : String) (fs : FS) (dirs : List (List String)) : List TEntry :=
  (dirs.filter (fun d => pathExistsAt fs d)).flatMap (mdEntriesOf base fs)

/-- The `list_transcripts` tool handler. -/
def list_transcripts (base : String) (fs : FS) (year month limitArg : Option Int) :
    ListRes :=
  let limit := limitArg.getD 20
  if pathExistsAt fs [] = false then
    { transcripts := [], total := 0, directory := base,
      message := some "No transcripts directory yet", filters := none }
  else
    let ts := outerLoop base fs limit (searchDirsFor fs year month) []
    { transcripts := ts, total := ts.length, directory := base,
      message := none, filters := some (year, month, limit) }

/-! ## `read_transcript` (server.py lines 485-525) -/

/-- The `read_transcript` result: an error payload or the file text. -/
inductive ReadOut where
  | err (msg : String) (searchedIn : Option String)
  | ok (content : String)
deriving DecidableEq

/-- Split a slash-separated relative path into components, dropping empty
and `.` components as `pathlib` normalisation does.  (An absolute
`filename` would replace the base in `base_dir / filename`; that is
outside the modelled scope, which covers relative filenames.) -/
def splitComps : List Char → List Char → List (List Char)
  | [], cur => [cur.reverse]
  | c :: t, cur =>
    if c = '/' then cur.reverse :: splitComps t [] else splitComps t (c :: cur)

/-- Components of a relative path string. -/
def splitSlash (s : String) : List String :=
  ((splitComps s.data []).filter (fun l => l ≠ [] ∧ l ≠ ['.'])).map String.mk

/-- `base_dir.rglob(pattern)` for a wildcard-free pattern: every entry
(directory or file) whose trailing components equal the pattern's
components, in tree-store order (standing for the OS-dependent
traversal order of `rglob`). -/
def rglobMatches (fs : FS) (pat : String) : List (List String) :=
  let comps := splitSlash pat
  (fs.dirs ++ fs.files.map (·.path)).filter
    (fun q => listIsPre comps.reverse q.reverse)

/-- The `read_transcript` tool handler: try the filename as a path under
the root; if absent, search recursively for it and use the first hit;
report "not found" when there is no hit.  Reading a directory raises
`IsADirectoryError`, which the handler catches into an error payload. -/
def read_transcript (base : String) (fs : FS) (filename : String) : ReadOut :=
  if filename = "" then .err "Filename is required" none
  else
    let p := splitSlash filename
    if pathExistsAt fs p then
      match findF fs p with
      | some f => .ok f.content
      | none => .err "IsADirectoryError" none
    else
      match rglobMatches fs filename with
      | [] => .err ("Transcript not found: " ++ filename) (some base)
      | q :: _ =>
        match findF fs q with
        | some f => .ok f.content
        | none => .err "IsADirectoryError" none

/-! ## Concrete fixtures for the scenario theorems -/

/-- Record `{"type":"user","message":{"content":"Hi"}}`. -/
def recHi : JValue :=
  .obj [("type", .str "user"), ("message", .obj [("content", .str "Hi")])]

/-- Record `{"type":"assistant","message":{"content":[{"type":"text","text":"Hello"}]}}`. -/
def recHello : JValue :=
  .obj [("type", .str "assistant"),
        ("message", .obj [("content", .arr [.obj [("type", .str "text"), ("text", .str "Hello")]])])]

/-- Record `{"type":"summary"}`. -/
def recSummary : JValue := .obj [("type", .str "summary")]

/-- A user record whose single content item is a `tool_result` holding two
nested text items. -/
def recTwoToolTexts : JValue :=
  .obj [("type", .str "user"),
        ("message", .obj [("content", .arr [
          .obj [("type", .str "tool_result"),
                ("content", .arr [
                  .obj [("type", .str "text"), ("text", .str "A")],
                  .obj [("type", .str "text"), ("text", .str "B")]])]])])]

/-- The line `{"type": "user", "message": {"content": "Hi"}}`. -/
def goodLine : String :=
  "\x7b\"type\": \"user\", \"message\": \x7b\"content\": \"Hi\"\x7d\x7d"

/-- An archive with one file two levels below the root. -/
def fsDeep : FS :=
  { dirs := [[], ["2025"], ["2025", "03"]],
    files := [⟨["2025", "03", "deep.md"], "DEEP", dt0⟩] }

/-- An archive whose year `2025` holds months `01` and `12`, one file
each. -/
def fsTwoMonths : FS :=
  { dirs := [[], ["2025"], ["2025", "01"], ["2025", "12"]],
    files := [⟨["2025", "01", "a.md"], "A", dt0⟩,
              ⟨["2025", "12", "b.md"], "B", dt0⟩] }

/-- An existing but empty archive root. -/
def fsEmptyRoot : FS := { dirs := [[]], files := [] }

/-- A completely absent archive (no root directory yet). -/
def fsNone : FS := { dirs := [], files := [] }

/-- Item `{"type":"text","text": s}` inside a tool_result content list. -/
def mkTextItem (s : String) : JValue :=
  .obj [("type", .str "text"), ("text", .str s)]

/-- A user record whose single content item is a `tool_result` with the
given content payload. -/
def userToolResultRec (content : JValue) : JValue :=
  .obj [("type", .str "user"),
        ("message", .obj [("content", .arr [
          .obj [("type", .str "tool_result"), ("content", content)]])])]

/-! ## Helper lemmas -/

theorem mem_dropLeading {p : Char → Bool} {c : Char} :
    ∀ {l : List Char}, c ∈ dropLeading p l → c ∈ l := by
  intro l h
  induction l with
  | nil => simp [dropLeading] at h
  | cons a t ih =>
    by_cases hp : p a
    · simp only [dropLeading, hp, if_true] at h
      exact List.mem_cons_of_mem a (ih h)
    · simpa [dropLeading, hp] using h

theorem mem_trimBy {p : Char → Bool} {c : Char} {l : List Char}
    (h : c ∈ trimBy p l) : c ∈ l := by
  unfold trimBy at h
  have h1 := List.mem_reverse.mp h
  have h2 := mem_dropLeading h1
  have h3 := List.mem_reverse.mp h2
  exact mem_dropLeading h3

/-! ## Claim C3 -/

/-- C3 (counterexample): the claim says the title sanitization keeps only
characters in `[A-Za-z0-9 _-]`, stripping all others.  CPython
`str.isalnum` is Unicode-aware, so the accented letter `é` survives the
filter and lands in the generated filename although it is outside that
character class. -/
theorem generate_filename_keeps_nonascii :
    generate_filename dt0 (some "é") = "2025-01-02_03-04-05_é.md" ∧
    sanitizeTitle "é" = "é" ∧ specAsciiAllowed 'é' = false := by
  refine ⟨by decide, by decide, by decide⟩

/-- C3 (amended): `generate_filename` is deterministic for a fixed
timestamp and title; the sanitized title keeps only characters CPython
considers alphanumeric plus hyphen and underscore (spaces having been
replaced by hyphens after trimming), is truncated to at most 50
characters and is appended after an underscore when the title is
nonempty; the filename always ends in `.md`. -/
theorem generate_filename_spec (dt : DateTime) (t : String) :
    generate_filename dt (some t) = generate_filename dt (some t) ∧
    (∃ p, generate_filename dt (some t) = p ++ ".md") ∧
    (sanitizeTitle t).data.length ≤ 50 ∧
    (∀ c ∈ (sanitizeTitle t).data, pyIsAlnum c = true ∨ c = '-' ∨ c = '_') ∧
    (t ≠ "" → generate_filename dt (some t) =
      strftimeTs dt ++ "_" ++ sanitizeTitle t ++ ".md") ∧
    generate_filename dt none = strftimeTs dt ++ ".md" := by
  refine ⟨rfl, ?_, ?_, ?_, ?_, rfl⟩
  · by_cases h : t = ""
    · exact ⟨strftimeTs dt, by simp [generate_filename, h]⟩
    · exact ⟨strftimeTs dt ++ "_" ++ sanitizeTitle t, by simp [generate_filename, h]⟩
  · simp [sanitizeTitle]
  · intro c hc
    simp only [sanitizeTitle] at hc
    have hc2 : c ∈ (trimBy pyIsSpaceChar (t.data.filter keepTitleChar)).map
        (fun c => if c = ' ' then '-' else c) := List.take_subset 50 _ hc
    obtain ⟨a, ha, hfa⟩ := List.mem_map.mp hc2
    have ha2 : a ∈ t.data.filter keepTitleChar := mem_trimBy ha
    have hk : keepTitleChar a = true := (List.mem_filter.mp ha2).2
    by_cases hsp : a = ' '
    · right; left
      simp [hsp] at hfa
      exact hfa.symm
    · simp only [hsp, if_false] at hfa
      subst hfa
      simp only [keepTitleChar, Bool.or_eq_true, decide_eq_true_eq] at hk
      rcases hk with ((h1 | h2) | h3) | h4
      · exact Or.inl h1
      · exact Or.inr (Or.inl h2)
      · exact Or.inr (Or.inr h3)
      · exact absurd h4 hsp
  · intro h
    simp [generate_filename, h]

/-- C3 (witness): the amended statement evaluated at a concrete timestamp
and title. -/
theorem generate_filename_spec_witness :
    (sanitizeTitle "My Title!").data.length ≤ 50 ∧
    generate_filename dt0 (some "My Title!") =
      strftimeTs dt0 ++ "_" ++ sanitizeTitle "My Title!" ++ ".md" :=
  ⟨(generate_filename_spec dt0 "My Title!").2.2.1,
   (generate_filename_spec dt0 "My Title!").2.2.2.2.1 (by decide)⟩

/-! ## Claim C6 -/

/-- C6: the three-record scenario renders a "## Human" section holding
"Hi", then a "## Claude" section holding "Hello", in record order, with
nothing contributed by the summary record. -/
theorem renderer_scenario :
    renderRecords [recHi, recHello, recSummary] =
      some ["## Human\n\nHi\n", "## Claude\n\nHello\n"] ∧
    renderRecord recSummary = some [] ∧
    parse_jsonl_to_markdown [goodLine] = some "## Human\n\nHi\n" ∧
    (renderRecords [recHi, recHello, recSummary]).map (pyJoin "\n") =
      some "## Human\n\nHi\n\n## Claude\n\nHello\n" := by
  refine ⟨by decide, by decide, by decide, by decide⟩

/-! ## Claim C9 -/

/-- C9: an assistant record whose `content` is a plain string contributes
no section at all, while a user record with the same string content is
rendered as a "Human" section. -/
theorem assistant_string_content_dropped (s : String) :
    renderRecord (.obj [("type", .str "assistant"),
      ("message", .obj [("content", .str s)])]) = some [] ∧
    renderRecord (.obj [("type", .str "user"),
      ("message", .obj [("content", .str s)])]) =
        some ["## Human\n\n" ++ s ++ "\n"] :=
  ⟨rfl, rfl⟩

/-! ## Claim C4 -/

/-- C4 (counterexample): the claim says a tool-result item whose content
is a list of text items becomes a single "Tool Result" section with one
fenced block flattening all nested text items.  With two nested text
items the code emits two separate "Tool Result" sections, one fenced
block each. -/
theorem tool_result_two_sections :
    renderRecord recTwoToolTexts =
      some ["### Tool Result\n\n```\nA\n```\n",
            "### Tool Result\n\n```\nB\n```\n"] := by
  decide

/-- C4 (amended): inside a list-content user record, a tool-result item
whose content is a list yields one "Tool Result" fenced section per
nested text item (non-text items are skipped), and a tool-result item
whose content is not a list yields a single fenced section holding the
stringified content. -/
theorem tool_result_rendering (texts : List String) (v : JValue)
    (hv : ∀ l, v ≠ .arr l) :
    renderRecord (userToolResultRec (.arr (texts.map mkTextItem))) =
      some (texts.map (fun s => "### Tool Result\n\n```\n" ++ s ++ "\n```\n")) ∧
    renderRecord (userToolResultRec v) =
      some ["### Tool Result\n\n```\n" ++ pyStr v ++ "\n```\n"] := by
  constructor
  · show some ((texts.map mkTextItem).flatMap toolResultPart ++ []) = _
    have : ∀ ts : List String, (ts.map mkTextItem).flatMap toolResultPart =
        ts.map (fun s => "### Tool Result\n\n```\n" ++ s ++ "\n```\n") := by
      intro ts
      induction ts with
      | nil => rfl
      | cons x xs ih => simp only [List.map_cons, List.flatMap_cons, ih]; rfl
    simp [this]
  · cases v with
    | arr l => exact absurd rfl (hv l)
    | null => rfl
    | bool b => rfl
    | num n => rfl
    | str s => rfl
    | obj f => rfl

theorem pyJoin_transcript_tail :
    ∀ (front : List String) (c : String), front ≠ [] →
      ∃ pre, pyJoin "\n" (front ++ ["## Transcript", "", c]) =
        pre ++ ("## Transcript\n\n" ++ c) := by
  intro front
  induction front with
  | nil => intro c h; exact absurd rfl h
  | cons x t ih =>
    intro c _
    cases t with
    | nil => exact ⟨x ++ "\n", rfl⟩
    | cons y s =>
      obtain ⟨pre, hpre⟩ := ih c (List.cons_ne_nil y s)
      refine ⟨x ++ "\n" ++ pre, ?_⟩
      show x ++ "\n" ++ pyJoin "\n" ((y :: s) ++ ["## Transcript", "", c]) = _
      rw [hpre]
      exact (String.append_assoc (x ++ "\n") pre _).symm

theorem find_map_overwrite (p : List String) (c : String) (mt : DateTime) :
    ∀ files : List FSFile, files.any (fun f => f.path == p) = true →
      (files.map (fun f => if f.path == p then
        { f with content := c, mtime := mt } else f)).find?
          (fun f => f.path == p) = some ⟨p, c, mt⟩ := by
  intro files
  induction files with
  | nil => intro h; simp at h
  | cons f t ih =>
    intro h
    by_cases hf : f.path = p
    · obtain ⟨fp, fc, fm⟩ := f
      simp only at hf
      subst hf
      simp [List.find?]
    · have hf2 : (f.path == p) = false := beq_eq_false_iff_ne.mpr hf
      have h2 : t.any (fun f => f.path == p) = true := by
        simpa [List.any_cons, hf2] using h
      simp only [List.map_cons, hf2, Bool.false_eq_true, if_false]
      rw [List.find?_cons_of_neg _ (by simp [hf2])]
      exact ih h2

theorem findF_writeTextAt (fs : FS) (p : List String) (c : String) (mt : DateTime)
    (h : (writeTextAt fs p c mt).1 = true) :
    findF (writeTextAt fs p c mt).2 p = some ⟨p, c, mt⟩ := by
  unfold writeTextAt at h ⊢
  by_cases hd : isDirAt fs p
  · simp [hd] at h
  · simp only [hd, Bool.false_eq_true, if_false]
    by_cases hf : isFileAt fs p
    · simp only [hf, if_true]
      exact find_map_overwrite p c mt fs.files hf
    · simp only [hf, Bool.false_eq_true, if_false, findF]
      rw [List.find?_append]
      have hnone : fs.files.find? (fun f => f.path == p) = none := by
        rw [List.find?_eq_none]
        intro f hfm hbe
        exact hf (List.any_eq_true.mpr ⟨f, hfm, hbe⟩)
      simp [hnone, List.find?]

/-! ## Claim C2 -/

/-- C2: empty or all-whitespace content makes `save_transcript` return the
`"Content cannot be empty"` error payload and leave the archive state
completely unchanged — no file and no directory is created. -/
theorem save_transcript_empty_content (base : String) (fs : FS) (now : DateTime)
    (content : String) (title : Option String) (tags : List String)
    (summary : Option String) (h : pyStrip content = "") :
    save_transcript base fs now content title tags summary =
      (.err "Content cannot be empty", fs) := by
  simp [save_transcript, h]

/-- C2 (witness): the whitespace-only content `"   "` on a concrete
archive. -/
theorem save_transcript_empty_content_witness :
    pyStrip "   " = "" ∧
    save_transcript "/t" fsNone dt0 "   " none [] none =
      (.err "Content cannot be empty", fsNone) :=
  ⟨by decide,
   save_transcript_empty_content "/t" fsNone dt0 "   " none [] none (by decide)⟩

/-! ## Claim C1 -/

/-- C1: for non-blank content (and an archive where the month directory
can be created and the target is not a directory), `save_transcript`
returns the success payload reporting the resolved path and the UTF-8
byte size of the document it wrote; the written document ends with a
`"## Transcript"` section holding the content verbatim — in particular
the content is a substring of the document body. -/
theorem save_transcript_ok (base : String) (fs : FS) (now : DateTime)
    (content : String) (title : Option String) (tags : List String)
    (summary : Option String)
    (h1 : pyStrip content ≠ "")
    (h2 : (mkdirSeq fs (leadSegs (monthRelOf now))).1 = true)
    (h3 : isDirAt (mkdirSeq fs (leadSegs (monthRelOf now))).2
      (monthRelOf now ++ [generate_filename now title]) = false) :
    (save_transcript base fs now content title tags summary).1 =
      .ok { status := "saved",
            filepath := base ++ "/" ++
              pyJoin "/" (monthRelOf now ++ [generate_filename now title]),
            filename := generate_filename now title,
            timestamp := isoformat now,
            size_bytes := utf8Len (buildSaveDoc now title tags summary content),
            title := title, tags := tags } ∧
    findF (save_transcript base fs now content title tags summary).2
        (monthRelOf now ++ [generate_filename now title]) =
      some ⟨monthRelOf now ++ [generate_filename now title],
            buildSaveDoc now title tags summary content, now⟩ ∧
    (∃ pre, buildSaveDoc now title tags summary content =
      pre ++ ("## Transcript\n\n" ++ content)) := by
  rcases e : mkdirSeq fs (leadSegs (monthRelOf now)) with ⟨b, fs1⟩
  rw [e] at h2 h3
  subst h2
  have hw : (writeTextAt fs1 (monthRelOf now ++ [generate_filename now title])
      (buildSaveDoc now title tags summary content) now).1 = true := by
    unfold writeTextAt
    simp only [h3, Bool.false_eq_true, if_false]
    by_cases hf : isFileAt fs1 (monthRelOf now ++ [generate_filename now title]) <;>
      simp [hf]
  rcases ew : writeTextAt fs1 (monthRelOf now ++ [generate_filename now title])
      (buildSaveDoc now title tags summary content) now with ⟨bw, fs2⟩
  rw [ew] at hw
  subst hw
  refine ⟨?_, ?_, ?_⟩
  · simp only [save_transcript, if_neg h1, e, ew]
  · have := findF_writeTextAt fs1 (monthRelOf now ++ [generate_filename now title])
      (buildSaveDoc now title tags summary content) now (by rw [ew])
    rw [ew] at this
    simpa only [save_transcript, if_neg h1, e, ew] using this
  · exact pyJoin_transcript_tail _ content (List.cons_ne_nil _ _)

/-- C1 (witness): a concrete save into an initially absent archive. -/
theorem save_transcript_ok_witness :
    pyStrip "hello world" ≠ "" ∧
    (save_transcript "/t" fsNone dt0 "hello world" none [] none).1 =
      .ok { status := "saved",
            filepath := "/t" ++ "/" ++
              pyJoin "/" (monthRelOf dt0 ++ [generate_filename dt0 none]),
            filename := generate_filename dt0 none,
            timestamp := isoformat dt0,
            size_bytes := utf8Len (buildSaveDoc dt0 none [] none "hello world"),
            title := none, tags := [] } :=
  ⟨by decide,
   (save_transcript_ok "/t" fsNone dt0 "hello world" none [] none
      (by decide) (by decide) (by decide)).1⟩

/-! ## Claim C5 -/

/-- C5 (counterexample): the claim says every non-blank line that fails to
parse as a JSON object is silently dropped without raising.  The line
`true` is valid JSON but not an object; the code then calls `.get` on
the parsed value, raising `AttributeError` and aborting the render
(modelled as `none`) even though the following record is valid. -/
theorem renderer_raises_on_nonobject_line :
    parse_jsonl_to_markdown ["true", goodLine] = none ∧
    jsonLoads "true" = some (.bool true) ∧
    parse_jsonl_to_markdown [goodLine] = some "## Human\n\nHi\n" := by
  refine ⟨by decide, rfl, by decide⟩

/-- C5 (amended): blank lines and lines that are not valid JSON are
silently dropped and do not disturb the rest of the render — in
particular a malformed JSON line followed by a valid record still
renders the valid record; however a line holding valid JSON that is not
an object makes the render raise. -/
theorem renderer_drop_unparsable (l : String) (rest : List String)
    (h : pyStrip l = "" ∨ jsonLoads (pyStrip l) = none) :
    parse_jsonl_to_markdown (l :: rest) = parse_jsonl_to_markdown rest ∧
    parse_jsonl_to_markdown ["\x7boops", goodLine] = some "## Human\n\nHi\n" := by
  constructor
  · unfold parse_jsonl_to_markdown lineRecords
    rcases h with h | h
    · simp [h]
    · by_cases hb : pyStrip l = ""
      · simp [hb]
      · simp [hb, h]
  · decide

/-- C5 (witness): dropping one concrete malformed line. -/
theorem renderer_drop_unparsable_witness :
    (pyStrip "\x7bnot json" = "" ∨ jsonLoads (pyStrip "\x7bnot json") = none) ∧
    parse_jsonl_to_markdown ["\x7bnot json", goodLine] =
      parse_jsonl_to_markdown [goodLine] :=
  ⟨Or.inr rfl, (renderer_drop_unparsable "\x7bnot json" [goodLine] (Or.inr rfl)).1⟩

/-- C4 (witness): the amended statement at a concrete two-text list and a
concrete non-list payload. -/
theorem tool_result_rendering_witness :
    renderRecord (userToolResultRec (.arr (["A", "B"].map mkTextItem))) =
      some (["A", "B"].map (fun s => "### Tool Result\n\n```\n" ++ s ++ "\n```\n")) ∧
    renderRecord (userToolResultRec (.str "raw output")) =
      some ["### Tool Result\n\n```\n" ++ pyStr (.str "raw output") ++ "\n```\n"] :=
  ⟨(tool_result_rendering ["A", "B"] (.str "raw output")
      (fun _ h => JValue.noConfusion h)).1,
   (tool_result_rendering ["A", "B"] (.str "raw output")
      (fun _ h => JValue.noConfusion h)).2⟩

/-! ## Claim C7 -/

theorem innerLoop_length_le (limit : Int) :
    ∀ (es acc : List TEntry), (acc.length : Int) ≤ limit →
      ((innerLoop es limit acc).length : Int) ≤ limit := by
  intro es
  induction es with
  | nil => intro acc h; exact h
  | cons e t ih =>
    intro acc h
    unfold innerLoop
    by_cases hle : limit ≤ (acc.length : Int)
    · simp only [hle, if_true]; exact h
    · simp only [hle, if_false]
      apply ih
      have h2 : (acc.length : Int) < limit := not_le.mp hle
      simp only [List.length_append, List.length_cons, List.length_nil]
      push_cast
      omega

theorem outerLoop_length_le (base : String) (fs : FS) (limit : Int) :
    ∀ (dirs : List (List String)) (acc : List TEntry), (acc.length : Int) ≤ limit →
      ((outerLoop base fs limit dirs acc).length : Int) ≤ limit := by
  intro dirs
  induction dirs with
  | nil => intro acc h; exact h
  | cons d rest ih =>
    intro acc h
    unfold outerLoop
    by_cases hex : pathExistsAt fs d = false
    · simp only [hex, if_true]; exact ih acc h
    · simp only [hex, if_false]
      have h2 := innerLoop_length_le limit (mdEntriesOf base fs d) acc h
      by_cases hl : limit ≤ ((innerLoop (mdEntriesOf base fs d) limit acc).length : Int)
      · simp only [hl, if_true]; exact h2
      · simp only [hl, if_false]; exact ih _ h2

/-- C7: `list_transcripts` never returns more entries than the requested
limit (default 20, nonnegative per the tool schema), and a missing
Archive Root yields the empty result with total 0 and the informational
message, not an error. -/
theorem list_transcripts_spec (base : String) (fs : FS)
    (year month limitArg : Option Int) (h : 0 ≤ limitArg.getD 20) :
    ((list_transcripts base fs year month limitArg).transcripts.length : Int) ≤
      limitArg.getD 20 ∧
    (pathExistsAt fs [] = false →
      list_transcripts base fs year month limitArg =
        { transcripts := [], total := 0, directory := base,
          message := some "No transcripts directory yet", filters := none }) := by
  constructor
  · unfold list_transcripts
    by_cases hr : pathExistsAt fs [] = false
    · simp only [hr, if_pos rfl]
      simpa using h
    · simp only [hr, if_neg (by simp [hr] : ¬ (pathExistsAt fs [] = false))]
      exact outerLoop_length_le base fs _ _ [] (by simpa using h)
  · intro hr
    simp [list_transcripts, hr]

/-- C7 (witness): a concrete archive with limit 1, and a concrete missing
root. -/
theorem list_transcripts_spec_witness :
    ((list_transcripts "/t" fsTwoMonths none none (some 1)).transcripts.length : Int) ≤
      (some (1 : Int)).getD 20 ∧
    list_transcripts "/t" fsNone none none (some 1) =
      { transcripts := [], total := 0, directory := "/t",
        message := some "No transcripts directory yet", filters := none } :=
  ⟨(list_transcripts_spec "/t" fsTwoMonths none none (some 1) (by decide)).1,
   (list_transcripts_spec "/t" fsNone none none (some 1) (by decide)).2 (by decide)⟩

/-! ## Claim C10 -/

theorem innerLoop_eq_take (limit : Int) :
    ∀ (es acc : List TEntry),
      innerLoop es limit acc = acc ++ es.take ((limit - acc.length).toNat) := by
  intro es
  induction es with
  | nil => intro acc; simp [innerLoop]
  | cons e t ih =>
    intro acc
    unfold innerLoop
    by_cases hle : limit ≤ (acc.length : Int)
    · have hz : (limit - (acc.length : Int)).toNat = 0 := by omega
      simp [hle, hz]
    · have hk : (limit - (acc.length : Int)).toNat =
        (limit - ((acc.length : Int) + 1)).toNat + 1 := by omega
      simp only [hle, if_false]
      rw [ih (acc ++ [e]), hk, List.take_succ_cons]
      simp [List.length_append]

theorem outerLoop_eq_take (base : String) (fs : FS) (limit : Int) :
    ∀ (dirs : List (List String)) (acc : List TEntry),
      outerLoop base fs limit dirs acc =
        acc ++ (flatEntries base fs dirs).take ((limit - acc.length).toNat) := by
  intro dirs
  induction dirs with
  | nil => intro acc; simp [outerLoop, flatEntries]
  | cons d rest ih =>
    intro acc
    unfold outerLoop
    by_cases hex : pathExistsAt fs d = false
    · rw [if_pos hex, ih]
      have : flatEntries base fs (d :: rest) = flatEntries base fs rest := by
        simp [flatEntries, List.filter_cons, hex]
      rw [this]
    · have hex2 : pathExistsAt fs d = true := by
        revert hex; cases pathExistsAt fs d <;> simp
      rw [if_neg hex]
      have hflat : flatEntries base fs (d :: rest) =
          mdEntriesOf base fs d ++ flatEntries base fs rest := by
        simp [flatEntries, List.filter_cons, hex2]
      rw [innerLoop_eq_take, hflat]
      set es := mdEntriesOf base fs d with hes
      set k := (limit - (acc.length : Int)).toNat with hkdef
      by_cases hl : limit ≤ (((acc ++ es.take k).length : Nat) : Int)
      · rw [if_pos hl]
        have hlen : (acc ++ es.take k).length = acc.length + min k es.length := by
          simp [List.length_append, List.length_take]
        have hke : k ≤ es.length := by
          rcases Nat.le_total k es.length with hce | hce
          · exact hce
          · rw [hlen] at hl
            have hmin : min k es.length = es.length := Nat.min_eq_right hce
            rw [hmin] at hl
            omega
        rw [List.take_append_eq_append_take]
        have : k - es.length = 0 := Nat.sub_eq_zero_of_le hke
        rw [this]
        simp
      · rw [if_neg hl, ih]
        have hlen : (acc ++ es.take k).length = acc.length + min k es.length := by
          simp [List.length_append, List.length_take]
        have hek : es.length < k := by
          rcases Nat.lt_or_ge es.length k with hce | hce
          · exact hce
          · exfalso
            apply hl
            rw [hlen]
            have hmin : min k es.length = k := Nat.min_eq_left hce
            rw [hmin]
            omega
        have htk : es.take k = es := List.take_of_length_le (Nat.le_of_lt hek)
        rw [List.take_append_eq_append_take, htk]
        have hrest : (limit - (((acc ++ es).length : Nat) : Int)).toNat =
            k - es.length := by
          simp only [List.length_append]
          push_cast
          omega
        rw [hrest, List.append_assoc]

/-- C10: with a truthy year filter and no month filter, the month
directories scanned are exactly the year directory's children in
ascending name order, and the entries returned are the first
`limit`-many of their files in that order (oldest month first) — in
contrast to the unfiltered walk, which visits years and months
newest-first: on an archive with months `01` and `12` and limit 1, the
year-filtered call returns the file of month `01` while the unfiltered
call returns the file of month `12`. -/
theorem list_transcripts_year_ascending (base : String) (fs : FS) (y : Int)
    (limitArg : Option Int) (hroot : pathExistsAt fs [] = true) (hy : y ≠ 0)
    (hyd : pathExistsAt fs [Int.repr y] = true) :
    searchDirsFor fs (some y) none =
      (pySorted (childNames fs [Int.repr y])).map (fun n => [Int.repr y, n]) ∧
    (list_transcripts base fs (some y) none limitArg).transcripts =
      (flatEntries base fs ((pySorted (childNames fs [Int.repr y])).map
        (fun n => [Int.repr y, n]))).take ((limitArg.getD 20 - 0).toNat) ∧
    (list_transcripts "/t" fsTwoMonths (some 2025) none (some 1)).transcripts.map
      (·.filename) = ["a.md"] ∧
    (list_transcripts "/t" fsTwoMonths none none (some 1)).transcripts.map
      (·.filename) = ["b.md"] := by
  have hsd : searchDirsFor fs (some y) none =
      (pySorted (childNames fs [Int.repr y])).map (fun n => [Int.repr y, n]) := by
    simp [searchDirsFor, intTruthy, hy, hyd]
  refine ⟨hsd, ?_, by decide, by decide⟩
  unfold list_transcripts
  rw [if_neg (by simp [hroot] : ¬ (pathExistsAt fs [] = false))]
  rw [hsd, outerLoop_eq_take]
  simp

/-- C10 (witness): the ascending-order statement evaluated on the concrete
two-month archive. -/
theorem list_transcripts_year_ascending_witness :
    searchDirsFor fsTwoMonths (some 2025) none =
      (pySorted (childNames fsTwoMonths [Int.repr 2025])).map
        (fun n => [Int.repr 2025, n]) ∧
    (list_transcripts "/t" fsTwoMonths (some 2025) none (some 1)).transcripts.map
      (·.filename) = ["a.md"] :=
  ⟨(list_transcripts_year_ascending "/t" fsTwoMonths 2025 (some 1)
      (by decide) (by decide) (by decide)).1,
   (list_transcripts_year_ascending "/t" fsTwoMonths 2025 (some 1)
      (by decide) (by decide) (by decide)).2.2.1⟩

/-! ## Claim C8 -/

/-- C8: `read_transcript` resolves the filename under the Archive Root
first; when that path does not exist it searches the whole tree for the
name and reads the first hit — so a file two levels deep is still
found — and when there is no hit anywhere it returns the "not found"
error payload rather than crashing. -/
theorem read_transcript_spec (base : String) (fs : FS) (fn : String)
    (hne : fn ≠ "") :
    (∀ g, findF fs (splitSlash fn) = some g →
      read_transcript base fs fn = .ok g.content) ∧
    (pathExistsAt fs (splitSlash fn) = false → rglobMatches fs fn = [] →
      read_transcript base fs fn =
        .err ("Transcript not found: " ++ fn) (some base)) ∧
    (∀ q rest f, pathExistsAt fs (splitSlash fn) = false →
      rglobMatches fs fn = q :: rest → findF fs q = some f →
      read_transcript base fs fn = .ok f.content) ∧
    read_transcript "/t" fsDeep "deep.md" = .ok "DEEP" ∧
    pathExistsAt fsDeep (splitSlash "deep.md") = false := by
  refine ⟨?_, ?_, ?_, by decide, by decide⟩
  · intro g hg
    have hex : pathExistsAt fs (splitSlash fn) = true := by
      have hmem := List.mem_of_find?_eq_some hg
      have hpred := List.find?_some hg
      unfold pathExistsAt isFileAt
      rw [List.any_eq_true.mpr ⟨g, hmem, hpred⟩]
      simp
    simp [read_transcript, hne, hex, hg]
  · intro hex hrg
    simp [read_transcript, hne, hex, hrg]
  · intro q rest f hex hrg hf
    simp [read_transcript, hne, hex, hrg, hf]

/-- C8 (witness): the not-found path and the deep-search path at concrete
inputs. -/
theorem read_transcript_spec_witness :
    read_transcript "/t" fsEmptyRoot "zzz.md" =
      .err ("Transcript not found: " ++ "zzz.md") (some "/t") ∧
    read_transcript "/t" fsDeep "deep.md" = .ok "DEEP" :=
  ⟨(read_transcript_spec "/t" fsEmptyRoot "zzz.md" (by decide)).2.1
      (by decide) (by decide),
   (read_transcript_spec "/t" fsDeep "deep.md" (by decide)).2.2.2.1⟩
